import Mathlib

/-!
Shallow embedding of the dns-bench tool (`main.go`).

Modelling conventions:
* Go `time.Duration` (an `int64` count of nanoseconds) is modelled as `ℤ`.
* Go `float64` arithmetic is modelled as exact rational arithmetic on `ℚ`.
* A Go `error` value is modelled by its message: `Option String` (`none` = nil).
* Go strings are modelled as `String`, but the string algorithms
  (`strings.Split`, `strings.TrimSpace`, `strings.SplitN`) are embedded as
  structurally recursive functions on `List Char` so they compute.
-/

/-- Go time.Duration is int64 nanoseconds; `math.MaxInt64` is its largest value. -/
def maxInt64 : ℤ := 9223372036854775807

/-- One sample of one query: elapsed nanoseconds and the error, if any
(`Sample` in main.go; an outcome is a success iff `err = none`). -/
structure Sample where
  duration : ℤ
  err : Option String
deriving DecidableEq, Repr

/-- The per-resolver summary (`Stats` in main.go).  Durations are in
nanoseconds; `durationsMs` collects the successful durations in (fractional)
milliseconds, in sample order. -/
structure Stats where
  count : ℕ
  successes : ℕ
  min : ℤ
  max : ℤ
  avg : ℤ
  median : ℤ
  p95 : ℤ
  errors : List String
  durationsMs : List ℚ
deriving DecidableEq, Repr

/-- Model of `float64(d.Microseconds())/1000.0`: nanoseconds to fractional milliseconds.
Go's `Duration.Microseconds` is integer division by 1000, truncating toward
zero, hence `Int.tdiv`. -/
def msOfDuration (d : ℤ) : ℚ :=
  ((Int.tdiv d 1000 : ℤ) : ℚ) / 1000

/-- Truncation of a rational toward zero, as Go's float64→int64 conversion. -/
def ratTrunc (q : ℚ) : ℤ :=
  Int.tdiv q.num (q.den : ℤ)

/-- Model of `time.Duration(ms * float64(time.Millisecond))`: fractional milliseconds
back to nanoseconds (`time.Millisecond = 10^6` ns), truncating toward zero. -/
def durationOfMs (q : ℚ) : ℤ :=
  ratTrunc (q * 1000000)

/-- Ascending sort of the millisecond values, as `sort.Float64s`. -/
def insertAsc (x : ℚ) : List ℚ → List ℚ
  | [] => [x]
  | y :: ys => if x ≤ y then x :: y :: ys else y :: insertAsc x ys

/-- Ascending sort of the millisecond values, as `sort.Float64s`. -/
def sortAsc (l : List ℚ) : List ℚ :=
  l.foldr insertAsc []

/-- The `percentile` function of main.go, verbatim: on the empty list 0; at
`p ≤ 0` the first element; at `p ≥ 100` the last; otherwise linear
interpolation between the order statistics at `⌊pos⌋` and `⌈pos⌉` where
`pos = (p/100)*(n-1)`.  Out-of-range indexing (which Go would panic on,
and which never happens, see the safety theorem) defaults to 0. -/
def percentile (sorted : List ℚ) (p : ℚ) : ℚ :=
  if sorted.length = 0 then 0
  else if p ≤ 0 then sorted.getD 0 0
  else if p ≥ 100 then sorted.getD (sorted.length - 1) 0
  else
    let pos : ℚ := (p / 100) * ((sorted.length : ℚ) - 1)
    let l : ℤ := ⌊pos⌋
    let u : ℤ := ⌈pos⌉
    if l = u then sorted.getD l.toNat 0
    else
      let frac : ℚ := pos - (l : ℚ)
      sorted.getD l.toNat 0 * (1 - frac) + sorted.getD u.toNat 0 * frac

/-- The body of the sample loop in `summarize`: on success bump `successes`,
update `min`/`max`, append the millisecond value; on failure append the
error. -/
def summarizeStep (st : Stats) (s : Sample) : Stats :=
  match s.err with
  | none =>
      { st with
          successes := st.successes + 1,
          min := if s.duration < st.min then s.duration else st.min,
          max := if s.duration > st.max then s.duration else st.max,
          durationsMs := st.durationsMs ++ [msOfDuration s.duration] }
  | some e => { st with errors := st.errors ++ [e] }

/-- The `summarize` function of main.go: fold the loop body over the samples
starting from `Count = len, Min = MaxInt64` and zero elsewhere; if no sample
succeeded reset `min`/`max` to 0 and return; otherwise fill in `avg` (mean of
the millisecond values) and `median`/`p95` (percentiles of the sorted
millisecond values). -/
def summarize (samples : List Sample) : Stats :=
  let init : Stats :=
    { count := samples.length, successes := 0, min := maxInt64, max := 0,
      avg := 0, median := 0, p95 := 0, errors := [], durationsMs := [] }
  let stats := samples.foldl summarizeStep init
  if stats.successes = 0 then
    { stats with min := 0, max := 0 }
  else
    let sum := stats.durationsMs.foldl (· + ·) 0
    let avgMs := sum / (stats.successes : ℚ)
    let ms := sortAsc stats.durationsMs
    { stats with
        avg := durationOfMs avgMs,
        median := durationOfMs (percentile ms 50),
        p95 := durationOfMs (percentile ms 95) }

/-- The success percentage as computed in `printTable`:
`100.0 * successes / count` when `count > 0`, else `0.0`. -/
def successPct (s : Stats) : ℚ :=
  if 0 < s.count then 100 * (s.successes : ℚ) / (s.count : ℚ) else 0

/-- A parsed `Name=Addr` resolver entry (`ResolverCfg` in main.go). -/
structure ResolverCfg where
  name : String
  addr : String
deriving DecidableEq, Repr

/-- Model of `strings.Split` for a one-character separator, embedded on `List Char`;
note `splitChar sep "" = [[]]` just as `strings.Split("", ",") = [""]`. -/
def splitCharAux (sep : Char) : List Char → List Char → List (List Char)
  | [], cur => [cur.reverse]
  | c :: cs, cur =>
    if c = sep then cur.reverse :: splitCharAux sep cs []
    else splitCharAux sep cs (c :: cur)

/-- Model of `strings.Split` for a one-character separator, on `List Char`. -/
def splitChar (sep : Char) (s : List Char) : List (List Char) :=
  splitCharAux sep s []

/-- Model of `strings.TrimSpace` (ASCII whitespace suffices for this tool's inputs). -/
def trimSpace (s : List Char) : List Char :=
  ((s.dropWhile Char.isWhitespace).reverse.dropWhile Char.isWhitespace).reverse

/-- Model of `strings.SplitN(p, sep, 2)` viewed as `strings.Cut`: split at the first
occurrence of `sep`, `none` when `sep` does not occur. -/
def cutChar (sep : Char) : List Char → Option (List Char × List Char)
  | [] => none
  | c :: cs =>
    if c = sep then some ([], cs)
    else (cutChar sep cs).map (fun p => (c :: p.1, p.2))

/-- What `parseResolvers` does with one comma-separated segment: trim it,
drop it if empty or without `=`, otherwise split at the first `=` and trim
name and address.  (The loop body of `parseResolvers`, with `continue`
rendered as `none`.) -/
def parseSegment (p : List Char) : Option ResolverCfg :=
  let p := trimSpace p
  if p = [] then none
  else
    match cutChar '=' p with
    | none => none
    | some (k, v) => some ⟨String.mk (trimSpace k), String.mk (trimSpace v)⟩

/-- One iteration of the `parseResolvers` loop: append the parsed entry,
or keep `out` unchanged when the segment was skipped (`continue`). -/
def parseStep (out : List ResolverCfg) (p : List Char) : List ResolverCfg :=
  match parseSegment p with
  | none => out
  | some cfg => out ++ [cfg]

/-- The `parseResolvers` function of main.go: loop over the comma-separated
segments, appending each successfully parsed segment. -/
def parseResolvers (s : String) : List ResolverCfg :=
  (splitChar ',' s.data).foldl parseStep []

/-- The two DNS record types the tool can query. -/
inductive RecordType where
  | A
  | AAAA
deriving DecidableEq, Repr

/-- The record-type selection of `lookup` in main.go: switch on
`strings.ToLower(network)`; `"ip4"`/`"ipv4"` give A, `"ip6"`/`"ipv6"` give
AAAA, anything else falls through to A. -/
def recordTypeOf (network : String) : RecordType :=
  let n := network.data.map Char.toLower
  if n = "ip4".data then RecordType.A
  else if n = "ipv4".data then RecordType.A
  else if n = "ip6".data then RecordType.AAAA
  else if n = "ipv6".data then RecordType.AAAA
  else RecordType.A

/-- The `uniqueErrors` loop of main.go, state passed explicitly: `seen` is
the key set of the `map[string]bool`, `out` the accumulated output.  A `nil`
error (`none`) is skipped; a message already seen is skipped; otherwise the
message is recorded and appended. -/
def uniqueErrorsGo : List (Option String) → List String → List String → List String
  | [], _, out => out
  | none :: rest, seen, out => uniqueErrorsGo rest seen out
  | some m :: rest, seen, out =>
    if m ∈ seen then uniqueErrorsGo rest seen out
    else uniqueErrorsGo rest (seen ++ [m]) (out ++ [m])

/-- The `uniqueErrors` function of main.go. -/
def uniqueErrors (errs : List (Option String)) : List String :=
  uniqueErrorsGo errs [] []

/-- First-occurrence deduplication, written the way the spec describes it:
keep each message the first time it appears, filtering all later copies out.
Used as the specification side of the `uniqueErrors` refinement. -/
def firstDedup : List String → List String
  | [] => []
  | a :: l => a :: firstDedup (l.filter (fun x => x ≠ a))
termination_by l => l.length
decreasing_by
  simp only [List.length_cons]
  exact Nat.lt_succ_of_le (List.length_filter_le _ _)

/-- Model of `%.1f` of a nonnegative millisecond value: round to tenths (ties away
from zero, a formatting detail irrelevant to the claims) and print
`⟨integer part⟩.⟨tenths digit⟩`. -/
def fmt1 (q : ℚ) : String :=
  let tenths : ℤ := round (q * 10)
  toString (Int.tdiv tenths 10) ++ "." ++ toString (tenths.tmod 10).natAbs

/-- The `durFmt` function of main.go: `"--"` for a nonpositive duration,
otherwise the millisecond value formatted `%.1f` with an `"ms"` suffix. -/
def durFmt (d : ℤ) : String :=
  if d ≤ 0 then "--"
  else fmt1 (msOfDuration d) ++ "ms"

/-- Which standard stream a message is written to. -/
inductive OutStream where
  | stdout
  | stderr
deriving DecidableEq, Repr

/-- The observable shape of one `main` run: the exit code, the stream the
fatal message (if any) went to, and whether the benchmark loop ran. -/
structure MainOutcome where
  exitCode : ℕ
  fatalMessageStream : Option OutStream
  ranBenchmark : Bool
deriving DecidableEq, Repr

/-- The control flow of `main` in main.go, with the benchmark loop and the
I/O abstracted: if no resolvers parse, `fmt.Println` (standard output!) and
`os.Exit(1)` before benchmarking; else benchmark, and if `-out` was given
and the CSV write fails, message to standard error and `os.Exit(1)`;
otherwise fall off the end of `main` (exit code 0).  `samples` stands for
whatever the benchmark loop measured; it never reaches the exit logic. -/
def mainModel (resolversCSV : String) (samples : List Sample)
    (outSet : Bool) (csvOk : Bool) : MainOutcome :=
  if parseResolvers resolversCSV = [] then
    ⟨1, some OutStream.stdout, false⟩
  else if outSet && !csvOk then
    ⟨1, some OutStream.stderr, true⟩
  else
    ⟨0, none, true⟩

/-- Deduplication of the error list starting from a set `seen` of messages
already recorded: the tail-invariant of the `uniqueErrors` loop. -/
def dedupFrom (seen : List String) : List (Option String) → List String
  | [] => []
  | none :: l => dedupFrom seen l
  | some m :: l =>
    if m ∈ seen then dedupFrom seen l else m :: dedupFrom (seen ++ [m]) l

lemma ratTrunc_of_mul (q : ℚ) (n : ℕ) (h : q * 1000000 = (n : ℚ)) :
    durationOfMs q = (n : ℤ) := by
  rw [durationOfMs, ratTrunc, h, Rat.num_natCast, Rat.den_natCast]
  simp [Int.tdiv_one]

lemma percentile_interp (s : List ℚ) (p : ℚ) (hs : s ≠ []) (h1 : 0 < p) (h2 : p < 100) :
    percentile s p =
      if ⌊(p / 100) * ((s.length : ℚ) - 1)⌋ = ⌈(p / 100) * ((s.length : ℚ) - 1)⌉ then
        s.getD (⌊(p / 100) * ((s.length : ℚ) - 1)⌋).toNat 0
      else
        s.getD (⌊(p / 100) * ((s.length : ℚ) - 1)⌋).toNat 0
            * (1 - ((p / 100) * ((s.length : ℚ) - 1) - (⌊(p / 100) * ((s.length : ℚ) - 1)⌋ : ℚ)))
          + s.getD (⌈(p / 100) * ((s.length : ℚ) - 1)⌉).toNat 0
            * ((p / 100) * ((s.length : ℚ) - 1) - (⌊(p / 100) * ((s.length : ℚ) - 1)⌋ : ℚ)) := by
  rw [percentile, if_neg (by simp [hs]), if_neg (not_le.mpr h1), if_neg (not_le.mpr h2)]

lemma percentile_pair_50 : percentile [10, 20] 50 = 15 := by
  have hf : (⌊(1/2 : ℚ)⌋ : ℤ) = 0 := by rw [Int.floor_eq_iff] <;> norm_num
  have hc : (⌈(1/2 : ℚ)⌉ : ℤ) = 1 := by rw [Int.ceil_eq_iff] <;> norm_num
  have hpos : (50 : ℚ) / 100 * ((([10, 20] : List ℚ).length : ℚ) - 1) = 1/2 := by norm_num
  rw [percentile_interp _ _ (by simp) (by norm_num) (by norm_num), hpos, hf, hc,
    if_neg (by decide)]
  norm_num [show ((0:ℤ)).toNat = 0 from rfl, show ((1:ℤ)).toNat = 1 from rfl]

lemma percentile_pair_95 : percentile [10, 20] 95 = 39/2 := by
  have hf : (⌊(19/20 : ℚ)⌋ : ℤ) = 0 := by rw [Int.floor_eq_iff] <;> norm_num
  have hc : (⌈(19/20 : ℚ)⌉ : ℤ) = 1 := by rw [Int.ceil_eq_iff] <;> norm_num
  have hpos : (95 : ℚ) / 100 * ((([10, 20] : List ℚ).length : ℚ) - 1) = 19/20 := by norm_num
  rw [percentile_interp _ _ (by simp) (by norm_num) (by norm_num), hpos, hf, hc,
    if_neg (by decide)]
  norm_num [show ((0:ℤ)).toNat = 0 from rfl, show ((1:ℤ)).toNat = 1 from rfl]

lemma percentile_five_50 : percentile [10, 20, 30, 40, 50] 50 = 30 := by
  have hf : (⌊(2 : ℚ)⌋ : ℤ) = 2 := by rw [Int.floor_eq_iff] <;> norm_num
  have hc : (⌈(2 : ℚ)⌉ : ℤ) = 2 := by rw [Int.ceil_eq_iff] <;> norm_num
  have hpos : (50 : ℚ) / 100 * ((([10, 20, 30, 40, 50] : List ℚ).length : ℚ) - 1) = 2 := by
    norm_num
  rw [percentile_interp _ _ (by simp) (by norm_num) (by norm_num), hpos, hf, hc,
    if_pos rfl]
  norm_num [show ((2:ℤ)).toNat = 2 from rfl]

lemma percentile_five_95 : percentile [10, 20, 30, 40, 50] 95 = 48 := by
  have hf : (⌊(19/5 : ℚ)⌋ : ℤ) = 3 := by rw [Int.floor_eq_iff] <;> norm_num
  have hc : (⌈(19/5 : ℚ)⌉ : ℤ) = 4 := by rw [Int.ceil_eq_iff] <;> norm_num
  have hpos : (95 : ℚ) / 100 * ((([10, 20, 30, 40, 50] : List ℚ).length : ℚ) - 1) = 19/5 := by
    norm_num
  rw [percentile_interp _ _ (by simp) (by norm_num) (by norm_num), hpos, hf, hc,
    if_neg (by decide)]
  norm_num [show ((3:ℤ)).toNat = 3 from rfl, show ((4:ℤ)).toNat = 4 from rfl]

lemma summarizeMixedEval :
    summarize [⟨10000000, none⟩, ⟨1500000000, some "timeout"⟩,
               ⟨20000000, none⟩, ⟨1500000000, some "timeout"⟩] =
      ⟨4, 2, 10000000, 20000000, 15000000, 15000000, 19500000,
       ["timeout", "timeout"], [10, 20]⟩ := by
  rw [summarize]
  norm_num [summarizeStep, maxInt64, msOfDuration, sortAsc, insertAsc,
    show Int.tdiv (10000000:ℤ) 1000 = 10000 from by decide,
    show Int.tdiv (20000000:ℤ) 1000 = 20000 from by decide,
    percentile_pair_50, percentile_pair_95,
    ratTrunc_of_mul (15 : ℚ) 15000000 (by norm_num),
    ratTrunc_of_mul (39/2 : ℚ) 19500000 (by norm_num)]

lemma summarizeAllOkEval :
    summarize [⟨10000000, none⟩, ⟨20000000, none⟩, ⟨30000000, none⟩,
               ⟨40000000, none⟩, ⟨50000000, none⟩] =
      ⟨5, 5, 10000000, 50000000, 30000000, 30000000, 48000000,
       [], [10, 20, 30, 40, 50]⟩ := by
  rw [summarize]
  norm_num [summarizeStep, maxInt64, msOfDuration, sortAsc, insertAsc,
    show Int.tdiv (10000000:ℤ) 1000 = 10000 from by decide,
    show Int.tdiv (20000000:ℤ) 1000 = 20000 from by decide,
    show Int.tdiv (30000000:ℤ) 1000 = 30000 from by decide,
    show Int.tdiv (40000000:ℤ) 1000 = 40000 from by decide,
    show Int.tdiv (50000000:ℤ) 1000 = 50000 from by decide,
    percentile_five_50, percentile_five_95,
    ratTrunc_of_mul (30 : ℚ) 30000000 (by norm_num),
    ratTrunc_of_mul (48 : ℚ) 48000000 (by norm_num)]

lemma foldl_step_successes (samples : List Sample) (st : Stats) :
    (samples.foldl summarizeStep st).successes =
      st.successes + samples.countP (fun s => s.err.isNone) := by
  induction samples generalizing st with
  | nil => simp
  | cons a rest ih =>
    rw [List.foldl_cons, ih, List.countP_cons]
    cases h : a.err <;> simp [summarizeStep, h] <;> omega

lemma foldl_step_count (samples : List Sample) (st : Stats) :
    (samples.foldl summarizeStep st).count = st.count := by
  induction samples generalizing st with
  | nil => simp
  | cons a rest ih =>
    rw [List.foldl_cons, ih]
    cases h : a.err <;> simp [summarizeStep, h]

lemma foldl_step_avg (samples : List Sample) (st : Stats) :
    (samples.foldl summarizeStep st).avg = st.avg := by
  induction samples generalizing st with
  | nil => simp
  | cons a rest ih =>
    rw [List.foldl_cons, ih]
    cases h : a.err <;> simp [summarizeStep, h]

lemma foldl_step_median (samples : List Sample) (st : Stats) :
    (samples.foldl summarizeStep st).median = st.median := by
  induction samples generalizing st with
  | nil => simp
  | cons a rest ih =>
    rw [List.foldl_cons, ih]
    cases h : a.err <;> simp [summarizeStep, h]

lemma foldl_step_p95 (samples : List Sample) (st : Stats) :
    (samples.foldl summarizeStep st).p95 = st.p95 := by
  induction samples generalizing st with
  | nil => simp
  | cons a rest ih =>
    rw [List.foldl_cons, ih]
    cases h : a.err <;> simp [summarizeStep, h]

lemma foldl_parseStep (l : List (List Char)) (out : List ResolverCfg) :
    l.foldl parseStep out = out ++ l.filterMap parseSegment := by
  induction l generalizing out with
  | nil => simp
  | cons a rest ih =>
    rw [List.foldl_cons]
    cases h : parseSegment a <;> simp [parseStep, h, ih, List.filterMap_cons]

lemma uniqueErrorsGo_eq (errs : List (Option String)) (seen : List String)
    (out : List String) :
    uniqueErrorsGo errs seen out = out ++ dedupFrom seen errs := by
  induction errs generalizing seen out with
  | nil => simp [uniqueErrorsGo, dedupFrom]
  | cons e rest ih =>
    cases e with
    | none => simp [uniqueErrorsGo, dedupFrom, ih]
    | some m =>
      by_cases h : m ∈ seen <;>
        simp [uniqueErrorsGo, dedupFrom, h, ih]

lemma dedupFrom_eq_firstDedup (l : List (Option String)) (seen : List String) :
    dedupFrom seen l = firstDedup ((l.filterMap id).filter (fun m => m ∉ seen)) := by
  induction l generalizing seen with
  | nil => simp [dedupFrom, firstDedup]
  | cons e rest ih =>
    cases e with
    | none => simp [dedupFrom, List.filterMap_cons, ih]
    | some m =>
      by_cases h : m ∈ seen
      · simp [dedupFrom, List.filterMap_cons, h, ih]
      · have hfun : ∀ x : List String,
            x.filter (fun a => decide (a ∉ seen ++ [m])) =
            x.filter (fun a => decide (a ≠ m) && decide (a ∉ seen)) := by
          intro x
          apply List.filter_congr
          intro a _
          by_cases h1 : a = m <;> by_cases h2 : a ∈ seen <;>
            simp [h1, h2, List.mem_append]
        rw [dedupFrom, if_neg h, ih]
        simp only [List.filterMap_cons, id]
        rw [List.filter_cons_of_pos (by simp [h]), firstDedup, List.filter_filter, hfun]

lemma mem_firstDedup (l : List String) (m : String) :
    m ∈ firstDedup l ↔ m ∈ l := by
  induction l using firstDedup.induct with
  | case1 => simp [firstDedup]
  | case2 a rest ih =>
    rw [firstDedup]
    simp only [List.mem_cons, ih, List.mem_filter]
    constructor
    · rintro (rfl | ⟨h1, _⟩)
      · exact Or.inl rfl
      · exact Or.inr h1
    · rintro (rfl | h1)
      · exact Or.inl rfl
      · by_cases hm : m = a
        · exact Or.inl hm
        · exact Or.inr ⟨h1, by simp [hm]⟩

lemma firstDedup_nodup (l : List String) : (firstDedup l).Nodup := by
  induction l using firstDedup.induct with
  | case1 => simp [firstDedup]
  | case2 a rest ih =>
    rw [firstDedup]
    refine List.nodup_cons.mpr ⟨?_, ih⟩
    rw [mem_firstDedup]
    simp

lemma append_ms_ne (x : String) : x ++ "ms" ≠ "--" := by
  intro h
  have h2 : x.data ++ "ms".data = "--".data := by rw [← String.data_append, h]
  have hl := congrArg List.length h2
  simp [List.length_append] at hl
  rw [List.eq_nil_of_length_eq_zero hl] at h2
  simp at h2

/-- C1: on a non-empty sorted list `s` of `n` values, `percentile` returns
`s[0]` when `p ≤ 0`, `s[n-1]` when `p ≥ 100`, and otherwise interpolates
linearly with `pos = (p/100)*(n-1)`, `lo = ⌊pos⌋`, `hi = ⌈pos⌉`: `s[lo]`
when `lo = hi`, else `s[lo]*(1-frac) + s[hi]*frac` with `frac = pos - lo`;
in particular `percentile [10, 20, 30, 40] 50 = 25`. -/
theorem percentile_matches_spec (s : List ℚ) (p : ℚ) (hs : s ≠ []) :
    (p ≤ 0 → percentile s p = s.getD 0 0) ∧
    (100 ≤ p → percentile s p = s.getD (s.length - 1) 0) ∧
    (0 < p → p < 100 →
      percentile s p =
        if ⌊(p / 100) * ((s.length : ℚ) - 1)⌋ = ⌈(p / 100) * ((s.length : ℚ) - 1)⌉ then
          s.getD (⌊(p / 100) * ((s.length : ℚ) - 1)⌋).toNat 0
        else
          s.getD (⌊(p / 100) * ((s.length : ℚ) - 1)⌋).toNat 0
              * (1 - ((p / 100) * ((s.length : ℚ) - 1)
                      - (⌊(p / 100) * ((s.length : ℚ) - 1)⌋ : ℚ)))
            + s.getD (⌈(p / 100) * ((s.length : ℚ) - 1)⌉).toNat 0
              * ((p / 100) * ((s.length : ℚ) - 1)
                 - (⌊(p / 100) * ((s.length : ℚ) - 1)⌋ : ℚ))) ∧
    percentile [10, 20, 30, 40] 50 = 25 := by
  refine ⟨?_, ?_, ?_, ?_⟩
  · intro hp
    rw [percentile, if_neg (by simp [hs]), if_pos hp]
  · intro hp
    rw [percentile, if_neg (by simp [hs]), if_neg (by simp; linarith), if_pos hp]
  · intro h1 h2
    exact percentile_interp s p hs h1 h2
  · have hf : (⌊(3/2 : ℚ)⌋ : ℤ) = 1 := by rw [Int.floor_eq_iff] <;> norm_num
    have hc : (⌈(3/2 : ℚ)⌉ : ℤ) = 2 := by rw [Int.ceil_eq_iff] <;> norm_num
    have hpos : (50 : ℚ) / 100 * ((([10, 20, 30, 40] : List ℚ).length : ℚ) - 1) = 3/2 := by
      norm_num
    rw [percentile_interp _ _ (by simp) (by norm_num) (by norm_num), hpos, hf, hc,
      if_neg (by decide)]
    norm_num [show ((1:ℤ)).toNat = 1 from rfl, show ((2:ℤ)).toNat = 2 from rfl]

/-- Witness for C1: the theorem instantiated at the sorted list
`[10, 20, 30, 40]` and `p = 50`. -/
theorem percentile_matches_spec_witness :
    percentile [10, 20, 30, 40] 50 = 25 :=
  (percentile_matches_spec [10, 20, 30, 40] 50 (by simp)).2.2.2

/-- C2: `summarize` on `[success 10ms, failure, success 20ms, failure]`
(durations in nanoseconds, both failures carrying the same message) gives
count 4, successCount 2, min 10ms, max 20ms, avg 15ms, and exactly one
distinct error; and on five successes with elapsed times 10..50ms it gives
min 10ms, max 50ms, avg 30ms, median 30ms, and success rate 100%. -/
theorem summarize_scenarios :
    ((summarize [⟨10000000, none⟩, ⟨1500000000, some "timeout"⟩,
                 ⟨20000000, none⟩, ⟨1500000000, some "timeout"⟩]).count = 4 ∧
     (summarize [⟨10000000, none⟩, ⟨1500000000, some "timeout"⟩,
                 ⟨20000000, none⟩, ⟨1500000000, some "timeout"⟩]).successes = 2 ∧
     (summarize [⟨10000000, none⟩, ⟨1500000000, some "timeout"⟩,
                 ⟨20000000, none⟩, ⟨1500000000, some "timeout"⟩]).min = 10000000 ∧
     (summarize [⟨10000000, none⟩, ⟨1500000000, some "timeout"⟩,
                 ⟨20000000, none⟩, ⟨1500000000, some "timeout"⟩]).max = 20000000 ∧
     (summarize [⟨10000000, none⟩, ⟨1500000000, some "timeout"⟩,
                 ⟨20000000, none⟩, ⟨1500000000, some "timeout"⟩]).avg = 15000000 ∧
     uniqueErrors ((summarize [⟨10000000, none⟩, ⟨1500000000, some "timeout"⟩,
                 ⟨20000000, none⟩, ⟨1500000000, some "timeout"⟩]).errors.map some) =
       ["timeout"]) ∧
    ((summarize [⟨10000000, none⟩, ⟨20000000, none⟩, ⟨30000000, none⟩,
                 ⟨40000000, none⟩, ⟨50000000, none⟩]).min = 10000000 ∧
     (summarize [⟨10000000, none⟩, ⟨20000000, none⟩, ⟨30000000, none⟩,
                 ⟨40000000, none⟩, ⟨50000000, none⟩]).max = 50000000 ∧
     (summarize [⟨10000000, none⟩, ⟨20000000, none⟩, ⟨30000000, none⟩,
                 ⟨40000000, none⟩, ⟨50000000, none⟩]).avg = 30000000 ∧
     (summarize [⟨10000000, none⟩, ⟨20000000, none⟩, ⟨30000000, none⟩,
                 ⟨40000000, none⟩, ⟨50000000, none⟩]).median = 30000000 ∧
     successPct (summarize [⟨10000000, none⟩, ⟨20000000, none⟩, ⟨30000000, none⟩,
                 ⟨40000000, none⟩, ⟨50000000, none⟩]) = 100) := by
  rw [summarizeMixedEval, summarizeAllOkEval]
  refine ⟨⟨rfl, rfl, rfl, rfl, rfl, by decide⟩, rfl, rfl, rfl, rfl, ?_⟩
  norm_num [successPct]

/-- C3: when every outcome fails, `summarize` reports the sentinel 0 for
min, max, avg, median and p95 (no statistic is computed, no division by
zero happens: the function is total). -/
theorem summarize_no_successes_sentinel (samples : List Sample)
    (h : ∀ s ∈ samples, s.err ≠ none) :
    (summarize samples).min = 0 ∧ (summarize samples).max = 0 ∧
    (summarize samples).avg = 0 ∧ (summarize samples).median = 0 ∧
    (summarize samples).p95 = 0 := by
  have hz : samples.countP (fun s => s.err.isNone) = 0 := by
    rw [List.countP_eq_zero]
    intro a ha
    simp [Option.isNone_iff_eq_none]
    exact h a ha
  rw [summarize]
  rw [if_pos (by rw [foldl_step_successes]; simp [hz])]
  simp [foldl_step_avg, foldl_step_median, foldl_step_p95]

/-- Witness for C3: a run with a single failed sample. -/
theorem summarize_no_successes_sentinel_witness :
    (summarize [⟨1000, some "dial timeout"⟩]).min = 0 ∧
    (summarize [⟨1000, some "dial timeout"⟩]).max = 0 ∧
    (summarize [⟨1000, some "dial timeout"⟩]).avg = 0 ∧
    (summarize [⟨1000, some "dial timeout"⟩]).median = 0 ∧
    (summarize [⟨1000, some "dial timeout"⟩]).p95 = 0 :=
  summarize_no_successes_sentinel [⟨1000, some "dial timeout"⟩] (by simp)

/-- C4: for every sample sequence, `summarize` returns `count` equal to the
input length, `successes` equal to the number of samples without an error,
and `successes ≤ count`. -/
theorem summarize_count_invariants (samples : List Sample) :
    (summarize samples).count = samples.length ∧
    (summarize samples).successes = samples.countP (fun s => s.err.isNone) ∧
    (summarize samples).successes ≤ (summarize samples).count := by
  have hc : (summarize samples).count = samples.length := by
    rw [summarize]
    split <;> simp [foldl_step_count]
  have hs : (summarize samples).successes = samples.countP (fun s => s.err.isNone) := by
    rw [summarize]
    split <;> simp [foldl_step_successes]
  refine ⟨hc, hs, ?_⟩
  rw [hc, hs]
  exact List.countP_le_length _

/-- C5: `parseResolvers` is exactly a comma-split followed by a per-segment
filterMap (trim, silently skip empty or `=`-less segments, split at the
first `=`, trim name and address) — which preserves input order and never
fails; concretely, `"A=1.1.1.1,B=8.8.8.8:53"` gives the two targets A and B
in order, `"bad,,C=9.9.9.9"` gives only C, and `""` gives zero targets. -/
theorem parseResolvers_spec :
    (∀ s : String, parseResolvers s = (splitChar ',' s.data).filterMap parseSegment) ∧
    parseResolvers "A=1.1.1.1,B=8.8.8.8:53" =
      [⟨"A", "1.1.1.1"⟩, ⟨"B", "8.8.8.8:53"⟩] ∧
    parseResolvers "bad,,C=9.9.9.9" = [⟨"C", "9.9.9.9"⟩] ∧
    parseResolvers "" = [] := by
  refine ⟨?_, by decide, by decide, by decide⟩
  intro s
  rw [parseResolvers, foldl_parseStep]
  simp

/-- Counterexample to C6 as stated: `"ipv6"` is a token other than `"ip4"`
and `"ip6"`, yet it does not fall back to an A-record lookup — the code
maps it to AAAA. -/
theorem recordType_fallback_counterexample :
    ("ipv6" : String) ≠ "ip4" ∧ ("ipv6" : String) ≠ "ip6" ∧
    recordTypeOf "ipv6" = RecordType.AAAA := by
  decide

/-- C6 (amended): the selection lowercases the token; `"ip4"` and `"ipv4"`
map to A, `"ip6"` and `"ipv6"` map to AAAA, and every token whose lowercase
form is none of those four falls back to A rather than failing. -/
theorem recordType_selection_amended :
    recordTypeOf "ip4" = RecordType.A ∧
    recordTypeOf "ipv4" = RecordType.A ∧
    recordTypeOf "ip6" = RecordType.AAAA ∧
    recordTypeOf "ipv6" = RecordType.AAAA ∧
    (∀ t : String,
      t.data.map Char.toLower ≠ "ip4".data →
      t.data.map Char.toLower ≠ "ipv4".data →
      t.data.map Char.toLower ≠ "ip6".data →
      t.data.map Char.toLower ≠ "ipv6".data →
      recordTypeOf t = RecordType.A) := by
  refine ⟨by decide, by decide, by decide, by decide, ?_⟩
  intro t h1 h2 h3 h4
  rw [recordTypeOf]
  simp only []
  rw [if_neg h1, if_neg h2, if_neg h3, if_neg h4]

/-- Witness for C6 (amended): an unrecognized token falls back to A. -/
theorem recordType_selection_amended_witness :
    recordTypeOf "udp" = RecordType.A :=
  recordType_selection_amended.2.2.2.2 "udp" (by decide) (by decide) (by decide) (by decide)

/-- C7: `uniqueErrors` returns exactly the distinct error messages among the
(non-nil) failures, keeping the order of first occurrence (the
`firstDedup` characterization), with no message repeated, and containing a
message iff some failure carried it. -/
theorem uniqueErrors_spec (errs : List (Option String)) :
    uniqueErrors errs = firstDedup (errs.filterMap id) ∧
    (uniqueErrors errs).Nodup ∧
    (∀ m : String, m ∈ uniqueErrors errs ↔ some m ∈ errs) := by
  have he : uniqueErrors errs = firstDedup (errs.filterMap id) := by
    rw [uniqueErrors, uniqueErrorsGo_eq, dedupFrom_eq_firstDedup]
    simp
  refine ⟨he, he ▸ firstDedup_nodup _, ?_⟩
  intro m
  rw [he, mem_firstDedup]
  simp [List.mem_filterMap]

/-- Counterexample to C8 as stated: with zero parsed resolvers the process
does exit with code 1 before benchmarking, but the message goes to standard
output (`fmt.Println`), not to standard error as claimed. -/
theorem main_exit_counterexample :
    mainModel "" [] false true =
      ⟨1, some OutStream.stdout, false⟩ ∧
    OutStream.stdout ≠ OutStream.stderr := by
  decide

/-- C8 (amended): if zero resolvers parse, `main` exits with code 1 before
any benchmarking, emitting its message to standard output; otherwise
(barring a CSV write failure) it exits 0; and the exit code never depends
on the measured outcomes, so no exit code distinguishes all-queries-failed
runs. -/
theorem main_exit_amended (csv : String) (samples : List Sample)
    (outSet csvOk : Bool) :
    (parseResolvers csv = [] →
      mainModel csv samples outSet csvOk = ⟨1, some OutStream.stdout, false⟩) ∧
    (parseResolvers csv ≠ [] → (outSet = false ∨ csvOk = true) →
      mainModel csv samples outSet csvOk = ⟨0, none, true⟩) ∧
    (∀ samples2 : List Sample,
      (mainModel csv samples outSet csvOk).exitCode =
        (mainModel csv samples2 outSet csvOk).exitCode) := by
  refine ⟨?_, ?_, fun _ => rfl⟩
  · intro h
    rw [mainModel, if_pos h]
  · intro h h2
    rw [mainModel, if_neg h]
    rcases h2 with h2 | h2 <;> rw [h2] <;> simp

/-- Witness for C8 (amended): one valid resolver, no CSV requested. -/
theorem main_exit_amended_witness :
    mainModel "X=1.2.3.4" [] false true = ⟨0, none, true⟩ :=
  (main_exit_amended "X=1.2.3.4" [] false true).2.1 (by decide) (Or.inl rfl)

/-- C9: `percentile` is total; it yields 0 on the empty list, and on a
non-empty list with `0 < p < 100` the indices `⌊pos⌋` and `⌈pos⌉` used for
interpolation always lie within `[0, n-1]` (so the Go code never indexes
out of bounds). -/
theorem percentile_safe (s : List ℚ) (p : ℚ) :
    percentile [] p = 0 ∧
    (s ≠ [] → 0 < p → p < 100 →
      0 ≤ ⌊(p / 100) * ((s.length : ℚ) - 1)⌋ ∧
      ⌊(p / 100) * ((s.length : ℚ) - 1)⌋ ≤ ⌈(p / 100) * ((s.length : ℚ) - 1)⌉ ∧
      ⌈(p / 100) * ((s.length : ℚ) - 1)⌉ ≤ (s.length : ℤ) - 1 ∧
      (⌊(p / 100) * ((s.length : ℚ) - 1)⌋).toNat < s.length ∧
      (⌈(p / 100) * ((s.length : ℚ) - 1)⌉).toNat < s.length) := by
  constructor
  · rw [percentile]
    simp
  · intro hs h1 h2
    have hn : 1 ≤ s.length := List.length_pos.mpr hs
    have hn1 : (0 : ℚ) ≤ (s.length : ℚ) - 1 := by
      have : (1 : ℚ) ≤ (s.length : ℚ) := by exact_mod_cast hn
      linarith
    have hp1 : (0 : ℚ) < p / 100 := by positivity
    have hp2 : p / 100 ≤ 1 := by
      rw [div_le_one (by norm_num)]
      linarith
    have hpos : (0 : ℚ) ≤ (p / 100) * ((s.length : ℚ) - 1) := mul_nonneg hp1.le hn1
    have hub : (p / 100) * ((s.length : ℚ) - 1) ≤ (s.length : ℚ) - 1 :=
      mul_le_of_le_one_left hn1 hp2
    have hfl : 0 ≤ ⌊(p / 100) * ((s.length : ℚ) - 1)⌋ :=
      Int.le_floor.mpr (by exact_mod_cast hpos)
    have hfc : ⌊(p / 100) * ((s.length : ℚ) - 1)⌋ ≤ ⌈(p / 100) * ((s.length : ℚ) - 1)⌉ :=
      Int.floor_le_ceil _
    have hcu : ⌈(p / 100) * ((s.length : ℚ) - 1)⌉ ≤ (s.length : ℤ) - 1 := by
      refine Int.ceil_le.mpr ?_
      push_cast
      exact hub
    refine ⟨hfl, hfc, hcu, ?_, ?_⟩ <;> omega

/-- Witness for C9: the bounds at the list `[10, 20, 30, 40]` and `p = 95`. -/
theorem percentile_safe_witness :
    0 ≤ ⌊(95 / 100 : ℚ) * ((([10, 20, 30, 40] : List ℚ).length : ℚ) - 1)⌋ ∧
    ⌊(95 / 100 : ℚ) * ((([10, 20, 30, 40] : List ℚ).length : ℚ) - 1)⌋ ≤
      ⌈(95 / 100 : ℚ) * ((([10, 20, 30, 40] : List ℚ).length : ℚ) - 1)⌉ ∧
    ⌈(95 / 100 : ℚ) * ((([10, 20, 30, 40] : List ℚ).length : ℚ) - 1)⌉ ≤
      (([10, 20, 30, 40] : List ℚ).length : ℤ) - 1 ∧
    (⌊(95 / 100 : ℚ) * ((([10, 20, 30, 40] : List ℚ).length : ℚ) - 1)⌋).toNat <
      ([10, 20, 30, 40] : List ℚ).length ∧
    (⌈(95 / 100 : ℚ) * ((([10, 20, 30, 40] : List ℚ).length : ℚ) - 1)⌉).toNat <
      ([10, 20, 30, 40] : List ℚ).length :=
  (percentile_safe [10, 20, 30, 40] 95).2 (by simp) (by norm_num) (by norm_num)

/-- C10: `durFmt` renders the placeholder `"--"` exactly for durations
`≤ 0`; in particular a measured statistic of exactly zero duration renders
as `"--"`, indistinguishable from the no-successes sentinel. -/
theorem durFmt_placeholder_iff (d : ℤ) :
    (durFmt d = "--" ↔ d ≤ 0) ∧ durFmt 0 = "--" := by
  constructor
  · constructor
    · intro h
      by_contra hd
      rw [not_le] at hd
      rw [durFmt, if_neg (not_le.mpr hd)] at h
      exact append_ms_ne _ h
    · intro h
      rw [durFmt, if_pos h]
  · rfl

/-- Witness for C10: the zero duration renders as the placeholder. -/
theorem durFmt_placeholder_iff_witness : durFmt 0 = "--" :=
  (durFmt_placeholder_iff 0).2
